import Mathlib

/-!
Shallow embedding of `src/main.rs` of the `m5atom-mcp3424-ble-receiver`
repository, and proofs about it.

Modelling conventions used throughout this file:
* Rust `f64` values are idealized as exact rationals `ℚ` (floating-point
  rounding is not modelled); the ADC bit depth enters the computation only
  through `2^(adc_bit - 1)` and is modelled with an integer exponent.
* Side effects (stdout/stderr prints, file writes) are modelled as explicit
  event traces; an invocation of the conversion function is additionally
  recorded as a `calcCall` event.
* A Rust panic (`unwrap` / `expect` failure, i.e. process abort) is modelled
  as `Option.none`; a normal return is `Option.some`.
-/

/-- Command-line options (struct `Opts`, src/main.rs lines 22-80), with the
clap field names of the source. The source field `calc` is named `calc_arg`
here because `calc` is a Lean keyword. -/
structure Opts where
  calc_arg : Option ℚ
  mode_ble : Bool
  uart_baud : ℕ
  uart_interface : Option String
  output : Option String
  verbose : Bool
  adc_bit : ℤ
  shunt_registance : ℚ
  refference_voltage : ℚ
  gain_amp : ℚ
  upper_resistance : ℚ
  lower_resistance : ℚ
  adc_max_voltage : ℚ
  is_enable_4ch : Bool
deriving DecidableEq, Repr

/-- The clap default values of the source (lines 22-80): 12-bit ADC, 2 mΩ
shunt, 0.2 V reference, gain 100, 3300/5600 Ω divider, 2.048 V full scale,
4-channel mode off. -/
def optsDefault : Opts :=
  { calc_arg := none, mode_ble := false, uart_baud := 115200,
    uart_interface := none, output := none, verbose := false,
    adc_bit := 12, shunt_registance := 2, refference_voltage := 1/5,
    gain_amp := 100, upper_resistance := 3300, lower_resistance := 5600,
    adc_max_voltage := 2048/1000, is_enable_4ch := false }

/-- Default options with 4-channel mode enabled (`-f`). -/
def opts4ch : Opts := { optsDefault with is_enable_4ch := true }

/-- Default options with verbose console output enabled (`-v`). -/
def optsVerbose : Opts := { optsDefault with verbose := true }

/-- Observable effects of the program: a line printed to stdout, a line
printed to stderr, an invocation of the conversion function
`calc_shunt_current` on a given ADC code, and a write to the log file. -/
inductive Event where
  | stdout (s : String)
  | stderr (s : String)
  | calcCall (adc : ℚ)
  | fileWrite (s : String)
deriving DecidableEq, Repr

/-- Render a rational, standing in for Rust `{}` display of `f64` (the
numeric text differs from Rust's decimal rendering; no claim depends on it). -/
def fmtQ (q : ℚ) : String :=
  if q.den = 1 then toString q.num else toString q.num ++ "/" ++ toString q.den

/-- Digits of a numeral to a natural number (most significant first). -/
def natOfDigits (l : List Char) : ℕ :=
  l.foldl (fun a c => 10 * a + (c.toNat - 48)) 0

/-- Consume an optional leading sign; `true` means negative. -/
def parseSign : List Char → Bool × List Char
  | '-' :: rest => (true, rest)
  | '+' :: rest => (false, rest)
  | cs => (false, cs)

/-- Apply an exponent suffix (the part after `e`/`E`) to a mantissa. -/
def applyExp (m : ℚ) (cs : List Char) : Option ℚ :=
  let (neg, cs1) := parseSign cs
  let ds := cs1.takeWhile Char.isDigit
  let rest := cs1.dropWhile Char.isDigit
  if ds.isEmpty || !rest.isEmpty then none
  else some (m * (10 : ℚ) ^ ((if neg then -1 else 1) * (natOfDigits ds : ℤ)))

/-- Core of the numeric-field parser: sign, integer part, optional fraction,
optional exponent; fails on anything else. -/
def parseF64core (cs : List Char) : Option ℚ :=
  let (neg, cs1) := parseSign cs
  let ip := cs1.takeWhile Char.isDigit
  let cs2 := cs1.dropWhile Char.isDigit
  let (fp, cs3) :=
    match cs2 with
    | '.' :: r => (r.takeWhile Char.isDigit, r.dropWhile Char.isDigit)
    | _ => ([], cs2)
  if ip.isEmpty && fp.isEmpty then none
  else
    let mant : ℚ :=
      (natOfDigits ip : ℚ) + (natOfDigits fp : ℚ) / (10 : ℚ) ^ fp.length
    let signed := if neg then -mant else mant
    match cs3 with
    | [] => some signed
    | 'e' :: r => applyExp signed r
    | 'E' :: r => applyExp signed r
    | _ => none

/-- Models Rust `str::parse::<f64>()` on ordinary decimal input: an external
standard-library collaborator of the source, idealized over `ℚ` (the `inf` /
`NaN` spellings accepted by Rust have no rational counterpart and are not
modelled; like Rust's, the parser rejects surrounding whitespace). -/
def parseF64 (s : String) : Option ℚ :=
  parseF64core s.toList

/-- Split a character list at every comma; like Rust `str::split(',')`, an
empty input gives one empty field and `n` commas give `n + 1` fields. -/
def splitComma : List Char → List (List Char)
  | [] => [[]]
  | c :: rest =>
    let r := splitComma rest
    if c = ',' then [] :: r
    else
      match r with
      | [] => [[c]]
      | g :: gs => (c :: g) :: gs

/-- Models Rust `str::split(',').collect::<Vec<_>>()` of src/main.rs
line 117 (an external standard-library collaborator of the source). -/
def rustSplitComma (s : String) : List String :=
  (splitComma s.toList).map (fun g => ⟨g⟩)

/-- Drop whitespace from both ends of a character list. -/
def trimChars (cs : List Char) : List Char :=
  ((cs.dropWhile Char.isWhitespace).reverse.dropWhile Char.isWhitespace).reverse

/-- Models Rust `str::trim()` (an external standard-library collaborator of
the source): remove leading and trailing whitespace. -/
def rustTrim (s : String) : String :=
  ⟨trimChars s.toList⟩

/-- The conversion function (`calc_shunt_current`, src/main.rs lines 93-112):
raw ADC code and configuration to shunt current, translated line by line from
the source body. -/
def calc_shunt_current (adc_code : ℚ) (opts : Opts) : ℚ :=
  let v_adc_max : ℚ := opts.adc_max_voltage
  let r_upper : ℚ := opts.upper_resistance
  let r_lower : ℚ := opts.lower_resistance
  let v_ref : ℚ := opts.refference_voltage
  let g_amp : ℚ := opts.gain_amp
  let bit : ℤ := opts.adc_bit
  let shunt : ℚ := opts.shunt_registance * 1000
  let bit_scale : ℚ := (2 : ℚ) ^ (bit - 1) - 1
  let v_adc := v_adc_max * adc_code / bit_scale
  let v_o_amp := v_adc * ((r_lower + r_upper) / r_lower)
  let v_i_amp := (v_o_amp - v_ref) / g_amp
  v_i_amp / shunt

/-- The event trace of one invocation of `calc_shunt_current`: the call
itself plus the two unconditional `println!` lines of src/main.rs 108-109
(`adc => {}` and `ch1 => {}`). -/
def calc_events (adc_code : ℚ) (opts : Opts) : List Event :=
  [Event.calcCall adc_code,
   Event.stdout ("adc => " ++ fmtQ adc_code),
   Event.stdout ("ch1 => " ++ fmtQ (calc_shunt_current adc_code opts))]

/-- Result of one successful `parse_data` call: the returned string
(`str_result`), the ordered converted current values it contains (the
ConvertedSample of the spec), and the emitted event trace. -/
structure ParseResult where
  out : String
  values : List ℚ
  events : List Event
deriving DecidableEq, Repr

/-- Channel-1 part of `parse_data` (src/main.rs lines 121-129): with at
least two fields, parse field 1 (trimmed) and convert it, panicking
(`none`) if the numeric parse fails; otherwise print `index error` to
stderr and leave the result string empty. -/
def ch1_step (arr : List String) (opts : Opts) :
    Option (String × List ℚ × List Event) :=
  if arr.length > 1 then
    match parseF64 (rustTrim arr[1]!) with
    | none => none
    | some adc =>
      let i_sr := calc_shunt_current adc opts
      some (fmtQ adc ++ ", " ++ fmtQ i_sr, [i_sr], calc_events adc opts)
  else
    some ("", [], [Event.stderr "index error"])

/-- Channels 2-4 part of `parse_data` (src/main.rs lines 131-150), run only
when `is_enable_4ch` is set: with more than four fields, parse and convert
fields 2, 3, 4 in order, appending one current per channel (a numeric parse
failure panics); otherwise print the `ch2~4 val error` diagnostic and keep
the single-channel result. -/
def ch4_step (arr : List String) (opts : Opts)
    (acc : String × List ℚ × List Event) : Option ParseResult :=
  if arr.length > 4 then
    match parseF64 (rustTrim arr[2]!) with
    | none => none
    | some a2 =>
      let i2 := calc_shunt_current a2 opts
      match parseF64 (rustTrim arr[3]!) with
      | none => none
      | some a3 =>
        let i3 := calc_shunt_current a3 opts
        match parseF64 (rustTrim arr[4]!) with
        | none => none
        | some a4 =>
          let i4 := calc_shunt_current a4 opts
          some ⟨acc.1 ++ ", " ++ fmtQ i2 ++ ", " ++ fmtQ i3 ++ ", " ++ fmtQ i4,
                acc.2.1 ++ [i2, i3, i4],
                acc.2.2 ++ calc_events a2 opts ++ calc_events a3 opts ++
                  calc_events a4 opts⟩
  else
    some ⟨acc.1, acc.2.1, acc.2.2 ++ [Event.stdout "ch2~4 val error"]⟩

/-- `parse_data` on the already-split field list (the body of src/main.rs
lines 114-153 after `str.split(',')`). -/
def parse_fields (arr : List String) (opts : Opts) : Option ParseResult :=
  match ch1_step arr opts with
  | none => none
  | some acc =>
    if opts.is_enable_4ch then ch4_step arr opts acc
    else some ⟨acc.1, acc.2.1, acc.2.2⟩

/-- The line parser `parse_data` (src/main.rs lines 114-153): split the raw
record on commas, then process channel 1 and, when enabled, channels 2-4. -/
def parse_data (s : String) (opts : Opts) : Option ParseResult :=
  parse_fields (rustSplitComma s) opts

/-- The output sink `write_data` (src/main.rs lines 82-91): print
`"<timestamp>, <str>"` to stdout when verbose, and append
`"<timestamp>, <str>\n"` to the log file when a writer is configured. The
timestamp `Local::now()` and the presence of the writer are parameters. -/
def write_data (ts : String) (s : String) (opts : Opts) (hasWriter : Bool) :
    List Event :=
  (if opts.verbose then [Event.stdout (ts ++ ", " ++ s)] else []) ++
  (if hasWriter then [Event.fileWrite (ts ++ ", " ++ s ++ "\n")] else [])

/-- One iteration of the UART main loop (src/main.rs lines 253-259): read a
line, then `write_data(parse_data(line, opts), opts, writer)`. A panic
inside `parse_data` aborts the process (`none`). -/
def uart_iteration (line : String) (ts : String) (opts : Opts)
    (hasWriter : Bool) : Option (List Event) :=
  match parse_data line opts with
  | none => none
  | some r => some (r.events ++ write_data ts r.out opts hasWriter)

/-- One BLE notification arrival (src/main.rs lines 221-224): decode the
payload as UTF-8 (`none` payload models an invalid-UTF-8 panic), then run
the same `parse_data` + `write_data` pipeline as the UART loop. -/
def ble_notification_step (payload : Option String) (ts : String)
    (opts : Opts) (hasWriter : Bool) : Option (List Event) :=
  match payload with
  | none => none
  | some s =>
    match parse_data s opts with
    | none => none
    | some r => some (r.events ++ write_data ts r.out opts hasWriter)

/-- BLE name filter constant of src/main.rs line 18: only peripherals whose
advertised name contains this string are tried. -/
def PERIPHERAL_NAME_MATCH_FILTER : String := "M5Atom-MCP3424 BLE Sender"

/-- Does `needle` occur as a contiguous substring of the character list?
Models Rust `str::contains` on the character level. -/
def containsAux (needle : List Char) : List Char → Bool
  | [] => needle.isEmpty
  | c :: rest => needle.isPrefixOf (c :: rest) || containsAux needle rest

/-- Rust `String::contains(pat)` for a string pattern. -/
def strContains (hay needle : String) : Bool :=
  containsAux needle.toList hay.toList

/-- What the BLE driver can observe about one discovered peripheral before
deciding whether to connect: its advertised local name (absent for unnamed
devices) and whether it is already connected. -/
structure PeripheralInfo where
  local_name : Option String
  is_connected : Bool
deriving DecidableEq, Repr

/-- The name the driver works with (src/main.rs lines 182-185):
`properties.local_name.unwrap_or("Unknown Peripheral")`. -/
def effectiveName (p : PeripheralInfo) : String :=
  p.local_name.getD "Unknown Peripheral"

/-- Abstracted actions of the BLE per-peripheral loop body. -/
inductive BleEvent where
  | foundMsg
  | connectAttempt
  | connectErrorMsg
  | subscribe
  | streamAndDisconnect
  | skipMsg
deriving DecidableEq, Repr

/-- Outcomes of the awaited BLE stack calls inside the matching branch,
treated as an external environment: whether `connect()` succeeds, whether
`is_connected()` reports true afterwards, and whether the notify
characteristic is present. -/
structure BleEnv where
  connect_ok : Bool
  connected_after : Bool
  has_notify_chara : Bool
deriving DecidableEq, Repr

/-- The body of the BLE per-peripheral loop (src/main.rs lines 190-233):
on a name-filter match, connect when not already connected (a connect error
is local: message and `continue`); when connected afterwards, find the
notify characteristic (`expect` panic, `none`, if absent), subscribe,
stream, disconnect; then break the adapter loop. A non-match only prints
the skip message. Returns the emitted actions and the break flag. -/
def process_peripheral (p : PeripheralInfo) (env : BleEnv) :
    Option (List BleEvent × Bool) :=
  if strContains (effectiveName p) PERIPHERAL_NAME_MATCH_FILTER then
    if !p.is_connected && !env.connect_ok then
      some ([BleEvent.foundMsg, BleEvent.connectAttempt,
             BleEvent.connectErrorMsg], false)
    else
      let pre := if p.is_connected then [BleEvent.foundMsg]
                 else [BleEvent.foundMsg, BleEvent.connectAttempt]
      if env.connected_after then
        if env.has_notify_chara then
          some (pre ++ [BleEvent.subscribe, BleEvent.streamAndDisconnect],
                true)
        else none
      else some (pre, true)
  else
    some ([BleEvent.skipMsg], false)

/-- Terminal shape of `uart_mode` (src/main.rs lines 241-274): either the
port-listing informational exit or the blocking read loop on an opened
port. -/
inductive UartOutcome where
  | listPortsAndExit0
  | openPortAndLoop (iface : String) (baud : ℕ)
deriving DecidableEq, Repr

/-- Process exit status carried by a `UartOutcome`: the port listing calls
`std::process::exit(0)`; the read loop never exits by itself. -/
def uartOutcomeExit : UartOutcome → Option ℕ
  | UartOutcome.listPortsAndExit0 => some 0
  | UartOutcome.openPortAndLoop _ _ => none

/-- Entry of `uart_mode` (src/main.rs lines 241-274) up to the first loop
iteration: with a configured interface, open the port and enter the read
loop; without one, print the port listing (over the enumerated `ports`)
and exit with status 0. -/
def uart_mode_entry (opts : Opts) (ports : List String) :
    List Event × UartOutcome :=
  match opts.uart_interface with
  | some com => ([], UartOutcome.openPortAndLoop com opts.uart_baud)
  | none =>
    ([Event.stdout "=======================",
      Event.stdout "<-i> option is required.",
      Event.stdout "Available ports: "] ++
       ports.map (fun p => Event.stdout ("  " ++ p)) ++
       [Event.stdout "======================="],
     UartOutcome.listPortsAndExit0)

/-- Modelled from the spec: the five-step closed-form conversion formula of
section 4.1, written exactly as the spec states it, to be compared with the
source-derived `calc_shunt_current`. -/
def spec_shunt_current (adc_code : ℚ) (opts : Opts) : ℚ :=
  let bit_scale : ℚ := (2 : ℚ) ^ (opts.adc_bit - 1) - 1
  let v_adc := opts.adc_max_voltage * adc_code / bit_scale
  let v_amp_out :=
    v_adc * (opts.lower_resistance + opts.upper_resistance) /
      opts.lower_resistance
  let v_amp_in := (v_amp_out - opts.refference_voltage) / opts.gain_amp
  v_amp_in / (opts.shunt_registance * 1000)

/-- Converted-value count of a parse result, `none` when the parse
panicked. -/
def valuesLen (o : Option ParseResult) : Option ℕ :=
  o.map (fun r => r.values.length)

/-- C1: for every ADC code and every configuration, the conversion function
`calc_shunt_current` returns exactly the value of the five-step closed-form
formula of the spec (`spec_shunt_current`), as a total function with no
error path. (Arithmetic is idealized as exact: under it, the source's
`v_adc * ((r_lower + r_upper) / r_lower)` and the spec's
`v_adc * (lower + upper) / lower` coincide; a division-by-zero
configuration yields the junk value `0` of rational division on both sides
rather than a reported error, standing in for the source's `inf`/`NaN`.) -/
theorem c1_conversion_formula :
    ∀ (adc_code : ℚ) (opts : Opts),
      calc_shunt_current adc_code opts = spec_shunt_current adc_code opts := by
  intro a o
  simp only [calc_shunt_current, spec_shunt_current]
  ring

/-- C6: a discovered peripheral whose effective advertised name does not
contain `PERIPHERAL_NAME_MATCH_FILTER` is skipped — the loop body emits
only the skip message, never a connect attempt, and does not break the
adapter loop; conversely a connect attempt is only ever emitted for a
peripheral whose name contains the filter. -/
theorem c6_ble_name_filter :
    ∀ (p : PeripheralInfo) (env : BleEnv),
      (strContains (effectiveName p) PERIPHERAL_NAME_MATCH_FILTER = false →
        process_peripheral p env = some ([BleEvent.skipMsg], false)) ∧
      (∀ evs brk, process_peripheral p env = some (evs, brk) →
        BleEvent.connectAttempt ∈ evs →
        strContains (effectiveName p) PERIPHERAL_NAME_MATCH_FILTER = true) := by
  intro p env
  constructor
  · intro h
    simp [process_peripheral, h]
  · intro evs brk hpp hmem
    cases hb : strContains (effectiveName p) PERIPHERAL_NAME_MATCH_FILTER with
    | true => rfl
    | false =>
      rw [process_peripheral, hb] at hpp
      simp at hpp
      rcases hpp with ⟨hevs, _⟩
      subst hevs
      simp at hmem

/-- C7: when serial mode runs without a configured interface identifier,
`uart_mode` prints the port listing and exits with status 0 (informational
discovery, not an error); with an interface it opens the port and enters
the read loop, which has no exit status of its own. -/
theorem c7_uart_discovery :
    ∀ (opts : Opts) (ports : List String),
      (opts.uart_interface = none →
        uart_mode_entry opts ports =
          ([Event.stdout "=======================",
            Event.stdout "<-i> option is required.",
            Event.stdout "Available ports: "] ++
            ports.map (fun p => Event.stdout ("  " ++ p)) ++
            [Event.stdout "======================="],
           UartOutcome.listPortsAndExit0) ∧
        uartOutcomeExit (uart_mode_entry opts ports).2 = some 0) ∧
      (∀ com, opts.uart_interface = some com →
        uart_mode_entry opts ports =
          ([], UartOutcome.openPortAndLoop com opts.uart_baud) ∧
        uartOutcomeExit (uart_mode_entry opts ports).2 = none) := by
  intro opts ports
  constructor
  · intro h
    constructor
    · simp [uart_mode_entry, h]
    · simp [uart_mode_entry, h, uartOutcomeExit]
  · intro com h
    constructor
    · simp [uart_mode_entry, h]
    · simp [uart_mode_entry, h, uartOutcomeExit]

/-- Witness for C6: the peripheral advertising `"Other Device"` (spec
example 4) is skipped and never connected to. -/
theorem c6_ble_name_filter_witness :
    process_peripheral ⟨some "Other Device", false⟩ ⟨true, true, true⟩ =
      some ([BleEvent.skipMsg], false) :=
  (c6_ble_name_filter ⟨some "Other Device", false⟩ ⟨true, true, true⟩).1
    (by decide)

/-- Witness for C7: with the default options (no `-i` interface) and one
enumerated port, the serial driver takes the port-listing exit with
status 0. -/
theorem c7_uart_discovery_witness :
    uartOutcomeExit (uart_mode_entry optsDefault ["COM3"]).2 = some 0 :=
  ((c7_uart_discovery optsDefault ["COM3"]).1 rfl).2

/-- The channel-1 step contributes one converted value when there are at
least two fields and none otherwise. -/
lemma ch1_step_values_length {arr : List String} {opts : Opts}
    {acc : String × List ℚ × List Event}
    (h : ch1_step arr opts = some acc) :
    acc.2.1.length = if 1 < arr.length then 1 else 0 := by
  unfold ch1_step at h
  split at h
  · rename_i hl
    cases hp : parseF64 (rustTrim arr[1]!) with
    | none => rw [hp] at h; exact absurd h (by simp)
    | some adc =>
      rw [hp] at h
      injection h with h
      subst h
      simp [hl]
  · rename_i hl
    injection h with h
    subst h
    simp [hl]

/-- The channels-2-4 step appends three converted values when there are
more than four fields and none otherwise. -/
lemma ch4_step_values_length {arr : List String} {opts : Opts}
    {acc : String × List ℚ × List Event} {r : ParseResult}
    (h : ch4_step arr opts acc = some r) :
    r.values.length = acc.2.1.length + (if 4 < arr.length then 3 else 0) := by
  unfold ch4_step at h
  split at h
  · rename_i hl
    cases hp2 : parseF64 (rustTrim arr[2]!) with
    | none => rw [hp2] at h; exact absurd h (by simp)
    | some a2 =>
      rw [hp2] at h
      cases hp3 : parseF64 (rustTrim arr[3]!) with
      | none => rw [hp3] at h; exact absurd h (by simp)
      | some a3 =>
        rw [hp3] at h
        cases hp4 : parseF64 (rustTrim arr[4]!) with
        | none => rw [hp4] at h; exact absurd h (by simp)
        | some a4 =>
          rw [hp4] at h
          injection h with h
          subst h
          simp [hl]
  · rename_i hl
    injection h with h
    subst h
    simp [hl]

/-- C2 (amended): for every record the parser accepts (returns from,
rather than panicking), the number of converted values is 0 when the
record has fewer than two fields, 4 when 4-channel mode is enabled and the
record has at least five fields, and 1 otherwise — in particular a
4-channel-mode record with two to four fields yields a partial one-value
sample instead of being rejected. -/
theorem c2_sample_size :
    ∀ (opts : Opts) (arr : List String),
      (parse_fields arr opts).isSome = true →
      valuesLen (parse_fields arr opts) =
        some (if arr.length ≤ 1 then 0
              else if opts.is_enable_4ch = true ∧ 4 < arr.length then 4
              else 1) := by
  intro opts arr h
  cases hc1 : ch1_step arr opts with
  | none =>
    have hpf : parse_fields arr opts = none := by
      unfold parse_fields; rw [hc1]
    rw [hpf] at h
    simp at h
  | some acc =>
    have hl1 := ch1_step_values_length hc1
    have hpf : parse_fields arr opts =
        (if opts.is_enable_4ch = true then ch4_step arr opts acc
         else some ⟨acc.1, acc.2.1, acc.2.2⟩) := by
      unfold parse_fields; rw [hc1]
    rw [hpf] at h ⊢
    by_cases h4 : opts.is_enable_4ch = true
    · rw [if_pos h4] at h ⊢
      cases hcr : ch4_step arr opts acc with
      | none => rw [hcr] at h; simp at h
      | some r =>
        have hl4 := ch4_step_values_length hcr
        simp only [valuesLen, Option.map_some', Option.some_inj]
        rw [hl4, hl1]
        by_cases hL : arr.length ≤ 1
        · simp only [if_pos hL, if_neg (by omega : ¬ (1 : ℕ) < arr.length),
            if_neg (by omega : ¬ (4 : ℕ) < arr.length)]
        · by_cases hH : 4 < arr.length
          · simp only [if_neg hL, if_pos (by omega : (1 : ℕ) < arr.length),
              if_pos hH,
              if_pos (show opts.is_enable_4ch = true ∧ 4 < arr.length from
                ⟨h4, hH⟩)]
          · simp only [if_neg hL, if_pos (by omega : (1 : ℕ) < arr.length),
              if_neg hH,
              if_neg (show ¬(opts.is_enable_4ch = true ∧ 4 < arr.length) from
                fun hc => hH hc.2)]
    · rw [if_neg h4] at h ⊢
      simp only [valuesLen, Option.map_some', Option.some_inj]
      rw [hl1]
      by_cases hL : arr.length ≤ 1
      · simp only [if_pos hL, if_neg (by omega : ¬ (1 : ℕ) < arr.length)]
      · simp only [if_neg hL, if_pos (by omega : (1 : ℕ) < arr.length),
          if_neg (show ¬(opts.is_enable_4ch = true ∧ 4 < arr.length) from
            fun hc => h4 hc.1)]

/-- Counterexample to C2 as stated: with 4-channel mode enabled, the
two-field record `"t,1"` is accepted and yields a sample of exactly one
converted value — a size other than 4, not a rejection. -/
theorem c2_sample_size_counterexample :
    opts4ch.is_enable_4ch = true ∧
    (parse_data "t,1" opts4ch).isSome = true ∧
    valuesLen (parse_data "t,1" opts4ch) = some 1 ∧ (1 : ℕ) ≠ 4 := by
  refine ⟨rfl, by decide, ?_, by decide⟩
  decide

/-- Witness for C2: the amended count theorem evaluated on the concrete
4-channel five-field record of spec example 2. -/
theorem c2_sample_size_witness :
    valuesLen (parse_fields ["tag", " 500", " 600", " 700", " 800"] opts4ch) =
      some (if (5 : ℕ) ≤ 1 then 0
            else if opts4ch.is_enable_4ch = true ∧ 4 < 5 then 4 else 1) :=
  c2_sample_size opts4ch ["tag", " 500", " 600", " 700", " 800"] (by decide)

/-- C3 (amended): on a line splitting into fewer than 2 fields the parser
reports the error (`index error` on stderr, the source's rendering of a
too-few-fields failure), never invokes the conversion function, and
returns normally with an empty result string — which the caller still
passes to the output sink, so the driver iteration emits a
timestamp-and-separator record instead of suppressing output, and
processing continues with the next line. -/
theorem c3_too_few_fields :
    ∀ (opts : Opts) (line ts : String) (w : Bool),
      (rustSplitComma line).length < 2 →
      parse_data line opts =
        some ⟨"", [],
          [Event.stderr "index error"] ++
            (if opts.is_enable_4ch = true
             then [Event.stdout "ch2~4 val error"] else [])⟩ ∧
      (∀ (a : ℚ) (r : ParseResult), parse_data line opts = some r →
        Event.calcCall a ∉ r.events) ∧
      uart_iteration line ts opts w =
        some (([Event.stderr "index error"] ++
          (if opts.is_enable_4ch = true
           then [Event.stdout "ch2~4 val error"] else [])) ++
          write_data ts "" opts w) := by
  intro opts line ts w hlen
  have h1 : ¬ (rustSplitComma line).length > 1 := by omega
  have h4n : ¬ (rustSplitComma line).length > 4 := by omega
  have hpd : parse_data line opts =
      some ⟨"", [],
        [Event.stderr "index error"] ++
          (if opts.is_enable_4ch = true
           then [Event.stdout "ch2~4 val error"] else [])⟩ := by
    by_cases h4 : opts.is_enable_4ch = true <;>
      simp [parse_data, parse_fields, ch1_step, ch4_step, h1, h4n, h4]
  refine ⟨hpd, ?_, ?_⟩
  · intro a r hr
    rw [hpd] at hr
    injection hr with hr
    subst hr
    by_cases h4 : opts.is_enable_4ch = true <;> simp [h4]
  · unfold uart_iteration parse_data at hpd ⊢
    rw [hpd]

/-- Counterexample to C3 as stated: for the two-field-less line `"tag"` in
verbose mode with a log writer, the driver iteration does emit output — a
stdout record `"T, "` and a file append `"T, \n"` consisting of the
timestamp and the separator — contradicting that no output is emitted for
that line. -/
theorem c3_too_few_fields_counterexample :
    uart_iteration "tag" "T" optsVerbose true =
      some [Event.stderr "index error", Event.stdout "T, ",
        Event.fileWrite "T, \n"] ∧
    Event.stdout "T, " ∈
      ([Event.stderr "index error", Event.stdout "T, ",
        Event.fileWrite "T, \n"] : List Event) := by
  decide

/-- Witness for C3: the amended theorem evaluated on the one-field line
`"tag"` of spec example 3 under the default options. -/
theorem c3_too_few_fields_witness :
    parse_data "tag" optsDefault =
      some ⟨"", [],
        [Event.stderr "index error"] ++
          (if optsDefault.is_enable_4ch = true
           then [Event.stdout "ch2~4 val error"] else [])⟩ :=
  (c3_too_few_fields optsDefault "tag" "T" false (by decide)).1

/-- C4: with 4-channel mode enabled, a record of 2 to 4 fields yields
exactly one converted value together with the `ch2~4 val error` stdout
diagnostic — a partial result, not a failure; a record of at least 5
fields parses and converts fields 2, 3, 4 in that order, appending one
current value per channel after the channel-1 value. -/
theorem c4_partial_4ch :
    ∀ (opts : Opts) (arr : List String) (r : ParseResult),
      opts.is_enable_4ch = true →
      parse_fields arr opts = some r →
      (2 ≤ arr.length → arr.length ≤ 4 →
        r.values.length = 1 ∧ Event.stdout "ch2~4 val error" ∈ r.events) ∧
      (5 ≤ arr.length → ∃ a1 a2 a3 a4,
        parseF64 (rustTrim arr[1]!) = some a1 ∧
        parseF64 (rustTrim arr[2]!) = some a2 ∧
        parseF64 (rustTrim arr[3]!) = some a3 ∧
        parseF64 (rustTrim arr[4]!) = some a4 ∧
        r.values = [calc_shunt_current a1 opts, calc_shunt_current a2 opts,
          calc_shunt_current a3 opts, calc_shunt_current a4 opts]) := by
  intro opts arr r h4 hpf
  cases hc1 : ch1_step arr opts with
  | none =>
    have hx : parse_fields arr opts = none := by
      unfold parse_fields; rw [hc1]
    rw [hx] at hpf
    exact absurd hpf (by simp)
  | some acc =>
    have hch4 : ch4_step arr opts acc = some r := by
      have hx : parse_fields arr opts = ch4_step arr opts acc := by
        unfold parse_fields
        rw [hc1]
        show (if opts.is_enable_4ch = true then ch4_step arr opts acc
              else some ⟨acc.1, acc.2.1, acc.2.2⟩) = ch4_step arr opts acc
        rw [if_pos h4]
      rw [hx] at hpf
      exact hpf
    constructor
    · intro hge hle
      have hn4 : ¬ arr.length > 4 := by omega
      unfold ch4_step at hch4
      rw [if_neg hn4] at hch4
      injection hch4 with hr
      subst hr
      constructor
      · have hl := ch1_step_values_length hc1
        rw [if_pos (by omega : 1 < arr.length)] at hl
        exact hl
      · simp
    · intro hge5
      have hg4 : arr.length > 4 := by omega
      unfold ch4_step at hch4
      rw [if_pos hg4] at hch4
      cases hq2 : parseF64 (rustTrim arr[2]!) with
      | none => rw [hq2] at hch4; exact absurd hch4 (by simp)
      | some a2 =>
        rw [hq2] at hch4
        cases hq3 : parseF64 (rustTrim arr[3]!) with
        | none => rw [hq3] at hch4; exact absurd hch4 (by simp)
        | some a3 =>
          rw [hq3] at hch4
          cases hq4 : parseF64 (rustTrim arr[4]!) with
          | none => rw [hq4] at hch4; exact absurd hch4 (by simp)
          | some a4 =>
            rw [hq4] at hch4
            injection hch4 with hr
            subst hr
            unfold ch1_step at hc1
            rw [if_pos (by omega : arr.length > 1)] at hc1
            cases hq1 : parseF64 (rustTrim arr[1]!) with
            | none => rw [hq1] at hc1; exact absurd hc1 (by simp)
            | some a1 =>
              rw [hq1] at hc1
              injection hc1 with hacc
              subst hacc
              exact ⟨a1, a2, a3, a4, rfl, rfl, rfl, rfl, rfl⟩

/-- Witness for C4: the 4-channel two-field record `["t", "1"]` produces a
sample of exactly one converted value. -/
theorem c4_partial_4ch_witness :
    Option.map (fun r => r.values.length)
      (parse_fields ["t", "1"] opts4ch) = some 1 := by
  cases hr : parse_fields ["t", "1"] opts4ch with
  | none => exact absurd hr (by decide)
  | some r =>
    have h := ((c4_partial_4ch opts4ch ["t", "1"] r rfl hr).1
      (by decide) (by decide)).1
    simp [h]

/-- C5: a non-numeric required ADC field is fatal — `parse_data` panics
(`none`, modelling the source's `unwrap` abort) for field 1 of any record
with at least 2 fields, and for fields 2-4 of a 4-channel record with at
least 5 fields; the drivers propagate the panic instead of skipping the
line and continuing. -/
theorem c5_numeric_parse_fatal :
    ∀ (opts : Opts) (arr : List String) (line ts : String) (w : Bool),
      (2 ≤ arr.length →
        (parseF64 (rustTrim arr[1]!) = none → parse_fields arr opts = none) ∧
        (opts.is_enable_4ch = true → 5 ≤ arr.length →
          (parseF64 (rustTrim arr[2]!) = none ∨
           parseF64 (rustTrim arr[3]!) = none ∨
           parseF64 (rustTrim arr[4]!) = none) →
          parse_fields arr opts = none)) ∧
      (parse_data line opts = none →
        uart_iteration line ts opts w = none ∧
        ble_notification_step (some line) ts opts w = none) := by
  intro opts arr line ts w
  constructor
  · intro hge
    constructor
    · intro hq1
      unfold parse_fields ch1_step
      rw [if_pos (by omega : arr.length > 1), hq1]
    · intro h4 hge5 hd
      cases hc1 : ch1_step arr opts with
      | none => unfold parse_fields; rw [hc1]
      | some acc =>
        have hx : parse_fields arr opts = ch4_step arr opts acc := by
          unfold parse_fields
          rw [hc1]
          show (if opts.is_enable_4ch = true then ch4_step arr opts acc
                else some ⟨acc.1, acc.2.1, acc.2.2⟩) = ch4_step arr opts acc
          rw [if_pos h4]
        rw [hx]
        unfold ch4_step
        rw [if_pos (by omega : arr.length > 4)]
        rcases hd with hd | hd | hd
        · rw [hd]
        · cases hq2 : parseF64 (rustTrim arr[2]!) with
          | none => rfl
          | some a2 => simp [hd]
        · cases hq2 : parseF64 (rustTrim arr[2]!) with
          | none => rfl
          | some a2 =>
            cases hq3 : parseF64 (rustTrim arr[3]!) with
            | none => rfl
            | some a3 => simp [hd]
  · intro hnone
    constructor
    · unfold uart_iteration
      rw [hnone]
    · have hb : ble_notification_step (some line) ts opts w =
          (match parse_data line opts with
           | none => none
           | some r => some (r.events ++ write_data ts r.out opts w)) := rfl
      rw [hb, hnone]

/-- Witness for C5: the record `"t,abc"` with non-numeric field 1 makes
`parse_data` panic and aborts the UART iteration. -/
theorem c5_numeric_parse_fatal_witness :
    parse_fields (rustSplitComma "t,abc") optsDefault = none ∧
    uart_iteration "t,abc" "T" optsDefault false = none := by
  have h := c5_numeric_parse_fatal optsDefault (rustSplitComma "t,abc")
    "t,abc" "T" false
  have hn : parse_fields (rustSplitComma "t,abc") optsDefault = none :=
    (h.1 (by decide)).1 (by decide)
  exact ⟨hn, (h.2 hn).1⟩

/-- C8: with 4-channel mode disabled, a line of fewer than 2 fields makes
the parser return the empty string, and both drivers still pass that empty
result to the output sink, so a record consisting only of the timestamp
and the separator `", "` is printed when verbose and appended to the log
file when a writer is configured. -/
theorem c8_empty_result_still_emitted :
    ∀ (opts : Opts) (line ts : String) (w : Bool),
      opts.is_enable_4ch = false →
      (rustSplitComma line).length < 2 →
      parse_data line opts = some ⟨"", [], [Event.stderr "index error"]⟩ ∧
      uart_iteration line ts opts w =
        some ([Event.stderr "index error"] ++ write_data ts "" opts w) ∧
      ble_notification_step (some line) ts opts w =
        some ([Event.stderr "index error"] ++ write_data ts "" opts w) ∧
      (opts.verbose = true →
        Event.stdout (ts ++ ", ") ∈ write_data ts "" opts w) ∧
      (w = true →
        Event.fileWrite (ts ++ ", " ++ "\n") ∈ write_data ts "" opts w) := by
  intro opts line ts w h4 hlen
  have h1 : ¬ (rustSplitComma line).length > 1 := by omega
  have hpd : parse_data line opts =
      some ⟨"", [], [Event.stderr "index error"]⟩ := by
    simp [parse_data, parse_fields, ch1_step, h1, h4]
  refine ⟨hpd, ?_, ?_, ?_, ?_⟩
  · unfold uart_iteration
    rw [hpd]
  · have hb : ble_notification_step (some line) ts opts w =
        (match parse_data line opts with
         | none => none
         | some r => some (r.events ++ write_data ts r.out opts w)) := rfl
    rw [hb, hpd]
  · intro hv
    simp [write_data, hv, String.append_empty]
  · intro hw
    simp [write_data, hw, String.append_empty]

/-- Witness for C8: the one-field line `"tag"` with verbose output and a
configured writer emits the timestamp-and-separator record on stdout. -/
theorem c8_empty_result_still_emitted_witness :
    parse_data "tag" optsVerbose =
      some ⟨"", [], [Event.stderr "index error"]⟩ ∧
    Event.stdout ("T" ++ ", ") ∈ write_data "T" "" optsVerbose true := by
  have h := c8_empty_result_still_emitted optsVerbose "tag" "T" true rfl
    (by decide)
  exact ⟨h.1, h.2.2.2.1 rfl⟩

/-- C9: every invocation of the conversion function emits exactly the two
stdout diagnostics `adc => <code>` and `ch1 => <current>` (besides the call
itself), the trace is independent of the verbose flag, and in a successful
4-channel parse the whole event trace is the concatenation of four such
per-invocation traces — so the printed label is `ch1` even for the values
of channels 2, 3 and 4. -/
theorem c9_calc_diagnostics :
    ∀ (opts : Opts) (b : Bool) (adc : ℚ) (arr : List String)
      (r : ParseResult),
      calc_events adc opts =
        [Event.calcCall adc,
         Event.stdout ("adc => " ++ fmtQ adc),
         Event.stdout ("ch1 => " ++ fmtQ (calc_shunt_current adc opts))] ∧
      calc_events adc { opts with verbose := b } = calc_events adc opts ∧
      (opts.is_enable_4ch = true → 4 < arr.length →
        parse_fields arr opts = some r →
        ∃ a1 a2 a3 a4,
          r.events = calc_events a1 opts ++ calc_events a2 opts ++
            calc_events a3 opts ++ calc_events a4 opts) := by
  intro opts b adc arr r
  refine ⟨rfl, rfl, ?_⟩
  intro h4 hg4 hpf
  cases hc1 : ch1_step arr opts with
  | none =>
    have hx : parse_fields arr opts = none := by
      unfold parse_fields; rw [hc1]
    rw [hx] at hpf
    exact absurd hpf (by simp)
  | some acc =>
    have hch4 : ch4_step arr opts acc = some r := by
      have hx : parse_fields arr opts = ch4_step arr opts acc := by
        unfold parse_fields
        rw [hc1]
        show (if opts.is_enable_4ch = true then ch4_step arr opts acc
              else some ⟨acc.1, acc.2.1, acc.2.2⟩) = ch4_step arr opts acc
        rw [if_pos h4]
      rw [hx] at hpf
      exact hpf
    unfold ch4_step at hch4
    rw [if_pos hg4] at hch4
    cases hq2 : parseF64 (rustTrim arr[2]!) with
    | none => rw [hq2] at hch4; exact absurd hch4 (by simp)
    | some a2 =>
      rw [hq2] at hch4
      cases hq3 : parseF64 (rustTrim arr[3]!) with
      | none => rw [hq3] at hch4; exact absurd hch4 (by simp)
      | some a3 =>
        rw [hq3] at hch4
        cases hq4 : parseF64 (rustTrim arr[4]!) with
        | none => rw [hq4] at hch4; exact absurd hch4 (by simp)
        | some a4 =>
          rw [hq4] at hch4
          injection hch4 with hr
          subst hr
          unfold ch1_step at hc1
          rw [if_pos (by omega : arr.length > 1)] at hc1
          cases hq1 : parseF64 (rustTrim arr[1]!) with
          | none => rw [hq1] at hc1; exact absurd hc1 (by simp)
          | some a1 =>
            rw [hq1] at hc1
            injection hc1 with hacc
            subst hacc
            exact ⟨a1, a2, a3, a4, rfl⟩

/-- Witness for C9: on the 4-channel five-field record
`["t", "1", "2", "3", "4"]` the parse emits four three-event conversion
traces, twelve events in total. -/
theorem c9_calc_diagnostics_witness :
    Option.map (fun r => r.events.length)
      (parse_fields ["t", "1", "2", "3", "4"] opts4ch) = some 12 := by
  cases hr : parse_fields ["t", "1", "2", "3", "4"] opts4ch with
  | none => exact absurd hr (by decide)
  | some r =>
    obtain ⟨a1, a2, a3, a4, he⟩ :=
      (c9_calc_diagnostics opts4ch true 0 ["t", "1", "2", "3", "4"] r).2.2
        rfl (by decide) hr
    simp [he, calc_events]

/-- The parser reads the split record only through its length and the
trimmed fields 1 to 4, so two field lists agreeing on those yield
identical results. -/
lemma parse_fields_congr (opts : Opts) (as bs : List String)
    (hlen : as.length = bs.length)
    (e1 : rustTrim as[1]! = rustTrim bs[1]!)
    (e2 : rustTrim as[2]! = rustTrim bs[2]!)
    (e3 : rustTrim as[3]! = rustTrim bs[3]!)
    (e4 : rustTrim as[4]! = rustTrim bs[4]!) :
    parse_fields as opts = parse_fields bs opts := by
  unfold parse_fields ch1_step ch4_step
  rw [hlen, e1, e2, e3, e4]

/-- C10: the parser trims each ADC-code field before numeric parsing, so
two raw records that split into the same number of fields whose fields
agree after trimming — e.g. one with spaces after commas or a trailing
carriage return, and its unpadded version — parse to the same result. -/
theorem c10_padded_fields_equal :
    ∀ (opts : Opts) (s t : String),
      (rustSplitComma s).length = (rustSplitComma t).length →
      (∀ i, i < 5 →
        rustTrim (rustSplitComma s)[i]! = rustTrim (rustSplitComma t)[i]!) →
      parse_data s opts = parse_data t opts := by
  intro opts s t hlen hfields
  exact parse_fields_congr opts (rustSplitComma s) (rustSplitComma t) hlen
    (hfields 1 (by omega)) (hfields 2 (by omega)) (hfields 3 (by omega))
    (hfields 4 (by omega))

/-- Witness for C10: the serial-style padded record `"tag, 123 \r"` parses
to the same result as the unpadded `"tag,123"`. -/
theorem c10_padded_fields_equal_witness :
    parse_data "tag, 123 \r" optsDefault = parse_data "tag,123" optsDefault :=
  c10_padded_fields_equal optsDefault "tag, 123 \r" "tag,123" (by decide)
    (by decide)
